import Mathlib

/-!
Shallow embedding of `bombsimon/rust-personnummer` (`src/lib.rs`): parsing,
century resolution, date construction, Luhn checksum validation and
formatting of Swedish personal identity numbers.

Strings are modelled as `List Char`.  Machine integers (`u32`, `u8`, `i32`)
are modelled as `Nat`/`Int` with explicit wraparound where the Rust code can
wrap (`u32` subtraction, the `as u8` truncation in `luhn`, the `as i32` cast
of the resolved year).  The clock read `Utc::now().year()` is an explicit
`now` parameter.
-/

deriving instance DecidableEq for Except

/-- `2^32`, the modulus of Rust `u32` arithmetic. -/
def U32 : Nat := 4294967296

/-- Wrapping `u32` subtraction `a - b` (release-mode Rust semantics). -/
def u32sub (a b : Nat) : Nat := (a % U32 + (U32 - b % U32)) % U32

/-- Reinterpretation of a `u32` value as an `i32` (the `as i32` cast). -/
def i32OfU32 (n : Nat) : Int :=
  if n % U32 < 2147483648 then ((n % U32 : Nat) : Int)
  else ((n % U32 : Nat) : Int) - (U32 : Int)

/-- `enum PersonnummerError { InvalidInput, InvalidDate }`. -/
inductive PersonnummerError where
  | InvalidInput
  | InvalidDate
deriving DecidableEq

/-- `enum Seperator { Plus, Minus }` (spelling kept from the source). -/
inductive Seperator where
  | Plus
  | Minus
deriving DecidableEq

/-- Is `c` an ASCII decimal digit (code points 48–57)?  The embedding
models the pattern's `\d` as the ASCII digits: the `regex` crate's Unicode
`\d` also admits non-ASCII decimal digits, but `str::parse` rejects those
and `try_from`'s `unwrap_or(0)` turns such captures into `0`; inputs
containing non-ASCII digits are outside this embedding. -/
def isDigitChar (c : Char) : Bool := 48 ≤ c.toNat && c.toNat ≤ 57

/-- Numeric value of a digit character. -/
def digitVal (c : Char) : Nat := c.toNat - 48

/-- `str::parse::<u32>` on a nonempty all-digit capture: its decimal value. -/
def toNum (l : List Char) : Nat := l.foldl (fun a c => a * 10 + digitVal c) 0

/-- The capture groups of `PNR_REGEX`
`^(\d{2})?(\d{2})(\d{2})(\d{2})([-+]?)?(\d{3})(\d?)$`, already converted to
numbers exactly as `try_from` does (`century` kept optional, an absent
`control` capture kept as `none`; `try_from` defaults it to `0`). -/
structure Captures where
  century : Option Nat
  year : Nat
  month : Nat
  day : Nat
  sep : Option Seperator
  serial : Nat
  control : Option Nat
deriving DecidableEq

/-- Matching of `PNR_REGEX` against an input string.  The separator is the
only non-digit character the pattern admits, so a match is either an
all-digit string of length 9–12, or digits (6 or 8: with or without the
century) followed by `-`/`+` followed by digits (3 or 4: with or without the
control digit); the group assignment below is the one the regex engine's
greedy matching with backtracking produces on each of those shapes. -/
def pnrMatch (s : List Char) : Option Captures :=
  let pre := s.takeWhile isDigitChar
  let rest := s.dropWhile isDigitChar
  match rest with
  | [] =>
    if s.length = 9 then
      some ⟨none, toNum (s.take 2), toNum ((s.drop 2).take 2),
            toNum ((s.drop 4).take 2), none, toNum ((s.drop 6).take 3), none⟩
    else if s.length = 10 then
      some ⟨none, toNum (s.take 2), toNum ((s.drop 2).take 2),
            toNum ((s.drop 4).take 2), none, toNum ((s.drop 6).take 3),
            some (toNum (s.drop 9))⟩
    else if s.length = 11 then
      some ⟨some (toNum (s.take 2)), toNum ((s.drop 2).take 2),
            toNum ((s.drop 4).take 2), toNum ((s.drop 6).take 2), none,
            toNum ((s.drop 8).take 3), none⟩
    else if s.length = 12 then
      some ⟨some (toNum (s.take 2)), toNum ((s.drop 2).take 2),
            toNum ((s.drop 4).take 2), toNum ((s.drop 6).take 2), none,
            toNum ((s.drop 8).take 3), some (toNum (s.drop 11))⟩
    else none
  | c :: post =>
    if c = '-' ∨ c = '+' then
      if post.all isDigitChar then
        let sep : Seperator := if c = '-' then .Minus else .Plus
        if pre.length = 6 ∧ post.length = 3 then
          some ⟨none, toNum (pre.take 2), toNum ((pre.drop 2).take 2),
                toNum (pre.drop 4), some sep, toNum post, none⟩
        else if pre.length = 6 ∧ post.length = 4 then
          some ⟨none, toNum (pre.take 2), toNum ((pre.drop 2).take 2),
                toNum (pre.drop 4), some sep, toNum (post.take 3),
                some (toNum (post.drop 3))⟩
        else if pre.length = 8 ∧ post.length = 3 then
          some ⟨some (toNum (pre.take 2)), toNum ((pre.drop 2).take 2),
                toNum ((pre.drop 4).take 2), toNum (pre.drop 6), some sep,
                toNum post, none⟩
        else if pre.length = 8 ∧ post.length = 4 then
          some ⟨some (toNum (pre.take 2)), toNum ((pre.drop 2).take 2),
                toNum ((pre.drop 4).take 2), toNum (pre.drop 6), some sep,
                toNum (post.take 3), some (toNum (post.drop 3))⟩
        else none
      else none
    else none

/-- Proleptic-Gregorian leap year, as `chrono` computes it. -/
def isLeapYear (y : Int) : Bool := y % 4 == 0 && (y % 100 != 0 || y % 400 == 0)

/-- Days in a month of year `y` (`0` for an out-of-range month). -/
def daysInMonth (y : Int) (m : Nat) : Nat :=
  match m with
  | 1 => 31
  | 2 => if isLeapYear y then 29 else 28
  | 3 => 31
  | 4 => 30
  | 5 => 31
  | 6 => 30
  | 7 => 31
  | 8 => 31
  | 9 => 30
  | 10 => 31
  | 11 => 30
  | 12 => 31
  | _ => 0

/-- Is `(y, m, d)` a calendar date `chrono::NaiveDate::from_ymd_opt`
accepts?  (`chrono` limits years to `MIN_YEAR..=MAX_YEAR`.) -/
def validYmd (y : Int) (m d : Nat) : Bool :=
  decide (-262144 ≤ y) && decide (y ≤ 262143) && decide (1 ≤ m) &&
    decide (m ≤ 12) && decide (1 ≤ d) && decide (d ≤ daysInMonth y m)

/-- A constructed calendar date (`chrono::NaiveDate`). -/
structure NaiveDate where
  year : Int
  month : Nat
  day : Nat
deriving DecidableEq

/-- `NaiveDate::from_ymd_opt`. -/
def fromYmdOpt (y : Int) (m d : Nat) : Option NaiveDate :=
  if validYmd y m d then some ⟨y, m, d⟩ else none

/-- The resolved record (`struct Personnummer`). -/
structure Personnummer where
  date : NaiveDate
  serial : Nat
  control : Nat
  seperator : Seperator
  coordination : Bool
deriving DecidableEq

/-- Century/separator resolution, lines 135–153 of `lib.rs`: explicit
century wins and the separator is recomputed from the (wrapping `u32`) age;
an omitted century is resolved from a base year (`now`, or `now - 100` after
a `+`). -/
def resolveCentury (now : Nat) (century : Option Nat) (sep : Option Seperator)
    (year : Nat) : Nat × Seperator :=
  match century with
  | some c =>
    if 100 ≤ u32sub now (c * 100 + year) then (c, .Plus) else (c, .Minus)
  | none =>
    let bs : Nat × Seperator :=
      match sep with
      | some .Plus => (u32sub now 100, .Plus)
      | _ => (now, .Minus)
    ((u32sub bs.1 (u32sub bs.1 year % 100)) / 100, bs.2)

/-- The body of `try_from` after capture extraction: resolve the century,
build the date from `day % 60` (`COORDINATION_NUMBER = 60`) or fail with
`InvalidDate`, and record `day > 60` as the coordination flag. -/
def parseCaps (now : Nat) (caps : Captures) :
    Except PersonnummerError Personnummer :=
  let cs := resolveCentury now caps.century caps.sep caps.year
  match fromYmdOpt (i32OfU32 ((cs.1 * 100 + caps.year) % U32)) caps.month
      (caps.day % 60) with
  | none => .error .InvalidDate
  | some d => .ok ⟨d, caps.serial, caps.control.getD 0, cs.2,
                   decide (60 < caps.day)⟩

/-- `Personnummer::try_from` / `Personnummer::new`: regex match (else
`InvalidInput`), then resolution and date construction. -/
def parse (now : Nat) (s : List Char) : Except PersonnummerError Personnummer :=
  match pnrMatch s with
  | none => .error .InvalidInput
  | some caps => parseCaps now caps

/-- Decimal digits of `n` (most significant first), by fuel-bounded
recursion; `fuel > n` always suffices. -/
def natToDigitsAux : Nat → Nat → List Nat
  | 0, _ => []
  | fuel + 1, n => if n < 10 then [n] else natToDigitsAux fuel (n / 10) ++ [n % 10]

/-- Decimal digits of `n`, most significant first (`[0]` for zero). -/
def natToDigits (n : Nat) : List Nat := natToDigitsAux (n + 1) n

/-- Rust `format!("{:0w}")` on a nonnegative number: the decimal digits,
zero-padded on the left to at least width `w`. -/
def fmtNat (w n : Nat) : List Nat :=
  List.replicate (w - (natToDigits n).length) 0 ++ natToDigits n

/-- `fmtNat` rendered as characters. -/
def digitsPad (w n : Nat) : List Char := (fmtNat w n).map Nat.digitChar

/-- Rust `format!("{}")` on a nonnegative number. -/
def natChars (n : Nat) : List Char := (natToDigits n).map Nat.digitChar

/-- Rust `format!("{:0w}")` on an `i32`: for a negative value the sign
leads and the zero padding fills the remaining width. -/
def intFmt (w : Nat) (i : Int) : List Char :=
  if 0 ≤ i then digitsPad w i.toNat else '-' :: digitsPad (w - 1) (-i).toNat

/-- The display character of a separator. -/
def sepChar : Seperator → Char
  | .Plus => '+'
  | .Minus => '-'

/-- The encoded day: the calendar day plus 60 for a coordination number
(the local `day_or_coordination` of `format` and `valid`). -/
def Personnummer.dayOrCoordination (p : Personnummer) : Nat :=
  if p.coordination then p.date.day + 60 else p.date.day

/-- The running transformed-digit sum of `luhn` (its
`chars().map(to_digit).enumerate().fold`), with `i` the current index. -/
def luhnFold (acc i : Nat) : List Char → Nat
  | [] => acc
  | c :: rest =>
    let v := if isDigitChar c then digitVal c else 0
    let value := if i % 2 = 0 then v * 2 else v
    luhnFold (acc + if 9 < value then value - 9 else value) (i + 1) rest

/-- `fn luhn(value: String) -> u8`: the transformed-digit sum is truncated
with `as u8` (mod 256) before the final `% 10`. -/
def luhn (value : List Char) : Nat :=
  (10 - luhnFold 0 0 value % 256 % 10) % 10

/-- The `to_control` string of `valid`:
`format!("{:02}{:02}{:02}{:03}", year % 100, month, day_or_coordination, serial)`. -/
def Personnummer.toControl (p : Personnummer) : List Char :=
  intFmt 2 (Int.tmod p.date.year 100) ++ digitsPad 2 p.date.month ++
    digitsPad 2 p.dayOrCoordination ++ digitsPad 3 p.serial

/-- `Personnummer::valid`: positive serial and matching Luhn digit. -/
def Personnummer.valid (p : Personnummer) : Bool :=
  decide (0 < p.serial) && decide (luhn p.toControl = p.control)

/-- The long format
`format!("{:04}{:02}{:02}{:03}{}", year, month, day_or_coordination, serial, control)`. -/
def Personnummer.formatLong (p : Personnummer) : List Char :=
  intFmt 4 p.date.year ++ digitsPad 2 p.date.month ++
    digitsPad 2 p.dayOrCoordination ++ digitsPad 3 p.serial ++ natChars p.control

/-- The short format
`format!("{:02}{:02}{:02}{}{:03}{}", year % 100, month, day_or_coordination, seperator, serial, control)`. -/
def Personnummer.formatShort (p : Personnummer) : List Char :=
  intFmt 2 (Int.tmod p.date.year 100) ++ digitsPad 2 p.date.month ++
    digitsPad 2 p.dayOrCoordination ++ [sepChar p.seperator] ++
    digitsPad 3 p.serial ++ natChars p.control

/-- `struct FormattedPersonnummer`. -/
structure FormattedPersonnummer where
  long : List Char
  short : List Char
deriving DecidableEq

/-- `Personnummer::format`. -/
def Personnummer.format (p : Personnummer) : FormattedPersonnummer :=
  ⟨p.formatLong, p.formatShort⟩

/-- Accessor `Personnummer::day` (the calendar day of the stored date). -/
def Personnummer.day (p : Personnummer) : Nat := p.date.day

/-- Accessor `Personnummer::month`. -/
def Personnummer.month (p : Personnummer) : Nat := p.date.month

/-- Accessor `Personnummer::year`. -/
def Personnummer.year (p : Personnummer) : Int := p.date.year

/-- `Personnummer::is_female`. -/
def Personnummer.isFemale (p : Personnummer) : Bool :=
  decide (p.serial % 10 % 2 = 0)

/-- `Personnummer::is_male`. -/
def Personnummer.isMale (p : Personnummer) : Bool := !p.isFemale

/-- `Personnummer::is_coordination_number`. -/
def Personnummer.isCoordinationNumber (p : Personnummer) : Bool :=
  p.coordination

/-- The resolved four-digit year a capture set leads to (the first argument
`try_from` passes to `from_ymd_opt`). -/
def resolvedYear (now : Nat) (caps : Captures) : Int :=
  i32OfU32 (((resolveCentury now caps.century caps.sep caps.year).1 * 100 +
    caps.year) % U32)

/-- A grammar-matching input is calendrically valid: the digits encode a
real calendar date after coordination-number decoding. -/
def calendarOk (now : Nat) (caps : Captures) : Bool :=
  validYmd (resolvedYear now caps) caps.month (caps.day % 60)

/-- The reference Luhn transformed-digit sum, as the specification words
it: the digit at 0-indexed position `i` is doubled when `i` is even, and 9
is subtracted when the doubled value exceeds 9. -/
def luhnSpecSum (i : Nat) : List Nat → Nat
  | [] => 0
  | d :: ds =>
    (let v := if i % 2 = 0 then d * 2 else d
     if 9 < v then v - 9 else v) + luhnSpecSum (i + 1) ds

/-- The reference Luhn check digit of a digit string:
`(10 - (sum mod 10)) mod 10`. -/
def luhnSpec (ds : List Nat) : Nat := (10 - luhnSpecSum 0 ds % 10) % 10

/-- The base year of §4.2: `now` for `-` or no separator, `now - 100`
after `+`. -/
def baseYear (now : Nat) (sep : Option Seperator) : Nat :=
  match sep with
  | some .Plus => now - 100
  | _ => now

/-- Concrete capture sets and records used to instantiate the theorems. -/
def caps6 : Captures := ⟨some 21, 0, 1, 1, none, 2, some 3⟩

def pn6 : Personnummer := ⟨⟨2100, 1, 1⟩, 2, 3, .Plus, false⟩

def caps7 : Captures := ⟨some 19, 0, 2, 45, none, 123, some 4⟩

def caps10 : Captures := ⟨none, 80, 1, 61, some .Minus, 329, some 4⟩

def pn10 : Personnummer := ⟨⟨1980, 1, 1⟩, 329, 4, .Minus, true⟩

def pn2 : Personnummer := ⟨⟨1990, 1, 1⟩, 1, 7, .Minus, false⟩

def caps8 : Captures := ⟨none, 80, 1, 1, none, 329, none⟩

def pn8 : Personnummer := ⟨⟨1980, 1, 1⟩, 329, 0, .Minus, false⟩

def pn4 : Personnummer := ⟨⟨1990, 1, 1⟩, 1, 7, .Minus, false⟩


/-! ### Infrastructure lemmas -/

theorem digitVal_le (c : Char) (h : isDigitChar c = true) : digitVal c ≤ 9 := by
  simp only [isDigitChar, Bool.and_eq_true, decide_eq_true_eq] at h
  simp only [digitVal]
  omega

theorem digitVal_digitChar (d : Nat) (h : d < 10) :
    digitVal (Nat.digitChar d) = d := by
  interval_cases d <;> rfl

theorem isDigitChar_digitChar (d : Nat) (h : d < 10) :
    isDigitChar (Nat.digitChar d) = true := by
  interval_cases d <;> rfl

theorem natToDigitsAux_congr :
    ∀ (f1 n f2 : Nat), n < f1 → n < f2 →
      natToDigitsAux f1 n = natToDigitsAux f2 n := by
  intro f1
  induction f1 with
  | zero => intro n f2 h1 _; omega
  | succ g1 ih =>
    intro n f2 h1 h2
    obtain ⟨g2, rfl⟩ : ∃ g2, f2 = g2 + 1 := ⟨f2 - 1, by omega⟩
    simp only [natToDigitsAux]
    by_cases h10 : n < 10
    · simp [h10]
    · simp only [h10, if_false]
      have hd : n / 10 < n := Nat.div_lt_self (by omega) (by omega)
      rw [ih (n / 10) g2 (by omega) (by omega)]

theorem natToDigits_small (n : Nat) (h : n < 10) : natToDigits n = [n] := by
  simp [natToDigits, natToDigitsAux, h]

theorem natToDigits_big (n : Nat) (h : 10 ≤ n) :
    natToDigits n = natToDigits (n / 10) ++ [n % 10] := by
  have hd : n / 10 < n := Nat.div_lt_self (by omega) (by omega)
  have step : natToDigitsAux (n + 1) n = natToDigitsAux n (n / 10) ++ [n % 10] := by
    simp [natToDigitsAux, Nat.not_lt.mpr h]
  rw [natToDigits, step,
    natToDigitsAux_congr n (n / 10) (n / 10 + 1) (by omega) (by omega)]
  rfl

theorem fmtNat_two (n : Nat) (h : n < 100) : fmtNat 2 n = [n / 10, n % 10] := by
  by_cases h10 : n < 10
  · rw [fmtNat, natToDigits_small n h10]
    have h1 : n / 10 = 0 := by omega
    have h2 : n % 10 = n := by omega
    simp [h1, h2, List.replicate]
  · rw [fmtNat, natToDigits_big n (by omega),
      natToDigits_small (n / 10) (by omega)]
    simp

theorem fmtNat_three (n : Nat) (h : n < 1000) :
    fmtNat 3 n = [n / 100, n / 10 % 10, n % 10] := by
  by_cases h10 : n < 10
  · rw [fmtNat, natToDigits_small n h10]
    have h1 : n / 100 = 0 := by omega
    have h2 : n / 10 % 10 = 0 := by omega
    have h3 : n % 10 = n := by omega
    simp [h1, h2, h3, List.replicate]
  · by_cases h100 : n < 100
    · rw [fmtNat, natToDigits_big n (by omega),
        natToDigits_small (n / 10) (by omega)]
      have h1 : n / 100 = 0 := by omega
      have h2 : n / 10 % 10 = n / 10 := by omega
      simp [h1, h2, List.replicate]
    · rw [fmtNat, natToDigits_big n (by omega),
        natToDigits_big (n / 10) (by omega),
        natToDigits_small (n / 10 / 10) (by omega)]
      have h1 : n / 10 / 10 = n / 100 := by omega
      simp [h1]

theorem fmtNat_four (n : Nat) (h : n < 10000) :
    fmtNat 4 n = [n / 1000, n / 100 % 10, n / 10 % 10, n % 10] := by
  by_cases h10 : n < 10
  · rw [fmtNat, natToDigits_small n h10]
    have h1 : n / 1000 = 0 := by omega
    have h2 : n / 100 % 10 = 0 := by omega
    have h3 : n / 10 % 10 = 0 := by omega
    have h4 : n % 10 = n := by omega
    simp [h1, h2, h3, h4, List.replicate]
  · by_cases h100 : n < 100
    · rw [fmtNat, natToDigits_big n (by omega),
        natToDigits_small (n / 10) (by omega)]
      have h1 : n / 1000 = 0 := by omega
      have h2 : n / 100 % 10 = 0 := by omega
      have h3 : n / 10 % 10 = n / 10 := by omega
      simp [h1, h2, h3, List.replicate]
    · by_cases h1000 : n < 1000
      · rw [fmtNat, natToDigits_big n (by omega),
          natToDigits_big (n / 10) (by omega),
          natToDigits_small (n / 10 / 10) (by omega)]
        have h1 : n / 1000 = 0 := by omega
        have h2 : n / 10 / 10 = n / 100 := by omega
        have h3 : n / 100 % 10 = n / 100 := by omega
        simp [h1, h2, h3, List.replicate]
      · rw [fmtNat, natToDigits_big n (by omega),
          natToDigits_big (n / 10) (by omega),
          natToDigits_big (n / 10 / 10) (by omega),
          natToDigits_small (n / 10 / 10 / 10) (by omega)]
        have h1 : n / 10 / 10 / 10 = n / 1000 := by omega
        have h2 : n / 10 / 10 = n / 100 := by omega
        have h3 : n / 100 / 10 = n / 1000 := by omega
        simp [h1, h2, h3]

theorem toNum_aux_lt (l : List Char) :
    ∀ acc : Nat, (∀ c ∈ l, isDigitChar c = true) →
      l.foldl (fun a c => a * 10 + digitVal c) acc < (acc + 1) * 10 ^ l.length := by
  induction l with
  | nil => intro acc _; simp
  | cons c t ih =>
    intro acc h
    have hc : digitVal c ≤ 9 := digitVal_le c (h c (by simp))
    have ht := ih (acc * 10 + digitVal c) (fun x hx => h x (by simp [hx]))
    calc List.foldl (fun a c => a * 10 + digitVal c) (acc * 10 + digitVal c) t <
          (acc * 10 + digitVal c + 1) * 10 ^ t.length := ht
      _ ≤ (acc + 1) * 10 ^ (c :: t).length := by
          simp only [List.length_cons, pow_succ]
          have : acc * 10 + digitVal c + 1 ≤ (acc + 1) * 10 := by omega
          calc (acc * 10 + digitVal c + 1) * 10 ^ t.length ≤
                ((acc + 1) * 10) * 10 ^ t.length :=
                Nat.mul_le_mul_right _ this
            _ = (acc + 1) * (10 ^ t.length * 10) := by ring

theorem toNum_lt (l : List Char) (h : ∀ c ∈ l, isDigitChar c = true) :
    toNum l < 10 ^ l.length := by
  have := toNum_aux_lt l 0 h
  simpa [toNum] using this

theorem toNum_lt_of_len (l : List Char) (k : Nat)
    (h : ∀ c ∈ l, isDigitChar c = true) (hl : l.length ≤ k) :
    toNum l < 10 ^ k :=
  lt_of_lt_of_le (toNum_lt l h) (Nat.pow_le_pow_right (by omega) hl)

theorem daysInMonth_le (y : Int) (m : Nat) : daysInMonth y m ≤ 31 := by
  unfold daysInMonth
  split <;> try omega
  split <;> omega

theorem validYmd_inv (y : Int) (m d : Nat) (h : validYmd y m d = true) :
    1 ≤ m ∧ m ≤ 12 ∧ 1 ≤ d ∧ d ≤ 31 ∧ -262144 ≤ y ∧ y ≤ 262143 := by
  have hd := daysInMonth_le y m
  simp only [validYmd, Bool.and_eq_true, decide_eq_true_eq] at h
  omega

theorem dropWhile_nil_all (p : Char → Bool) :
    ∀ l : List Char, l.dropWhile p = [] → ∀ c ∈ l, p c = true := by
  intro l h
  exact (List.dropWhile_eq_nil_iff).mp h

theorem toNum_segment_lt (s l : List Char) (k b : Nat)
    (hall : ∀ c ∈ s, isDigitChar c = true) (hsub : l ⊆ s)
    (hl : l.length ≤ k) (hb : 10 ^ k ≤ b) : toNum l < b :=
  lt_of_lt_of_le (toNum_lt_of_len l k (fun c hc => hall c (hsub hc)) hl) hb

theorem pnrMatch_bounds (s : List Char) (caps : Captures)
    (h : pnrMatch s = some caps) :
    (∀ c, caps.century = some c → c < 100) ∧ caps.year < 100 ∧
      caps.month < 100 ∧ caps.day < 100 ∧ caps.serial < 1000 ∧
      (∀ k, caps.control = some k → k < 10) := by
  unfold pnrMatch at h
  cases hrest : s.dropWhile isDigitChar with
  | nil =>
    simp only [hrest] at h
    have hall : ∀ c ∈ s, isDigitChar c = true := dropWhile_nil_all _ s hrest
    split at h
    case isTrue hlens =>
      injection h with h
      subst h
      refine ⟨?_, ?_, ?_, ?_, ?_, ?_⟩
      · intro c0 hc0; simp at hc0
      · exact toNum_segment_lt s _ 2 100 hall (List.take_subset _ _) (by rw [List.length_take]; omega) (by norm_num)
      · exact toNum_segment_lt s _ 2 100 hall ((List.take_subset _ _).trans (List.drop_subset _ _)) (by rw [List.length_take]; omega) (by norm_num)
      · exact toNum_segment_lt s _ 2 100 hall ((List.take_subset _ _).trans (List.drop_subset _ _)) (by rw [List.length_take]; omega) (by norm_num)
      · exact toNum_segment_lt s _ 3 1000 hall ((List.take_subset _ _).trans (List.drop_subset _ _)) (by rw [List.length_take]; omega) (by norm_num)
      · intro k0 hk0; simp at hk0
    case isFalse h9 =>
    split at h
    case isTrue hlens =>
      injection h with h
      subst h
      refine ⟨?_, ?_, ?_, ?_, ?_, ?_⟩
      · intro c0 hc0; simp at hc0
      · exact toNum_segment_lt s _ 2 100 hall (List.take_subset _ _) (by rw [List.length_take]; omega) (by norm_num)
      · exact toNum_segment_lt s _ 2 100 hall ((List.take_subset _ _).trans (List.drop_subset _ _)) (by rw [List.length_take]; omega) (by norm_num)
      · exact toNum_segment_lt s _ 2 100 hall ((List.take_subset _ _).trans (List.drop_subset _ _)) (by rw [List.length_take]; omega) (by norm_num)
      · exact toNum_segment_lt s _ 3 1000 hall ((List.take_subset _ _).trans (List.drop_subset _ _)) (by rw [List.length_take]; omega) (by norm_num)
      · intro k0 hk0
        simp only [Option.some.injEq] at hk0
        subst hk0
        exact toNum_segment_lt s _ 1 10 hall (List.drop_subset _ _) (by rw [List.length_drop]; omega) (by norm_num)
    case isFalse h10 =>
    split at h
    case isTrue hlens =>
      injection h with h
      subst h
      refine ⟨?_, ?_, ?_, ?_, ?_, ?_⟩
      · intro c0 hc0
        simp only [Option.some.injEq] at hc0
        subst hc0
        exact toNum_segment_lt s _ 2 100 hall (List.take_subset _ _) (by rw [List.length_take]; omega) (by norm_num)
      · exact toNum_segment_lt s _ 2 100 hall ((List.take_subset _ _).trans (List.drop_subset _ _)) (by rw [List.length_take]; omega) (by norm_num)
      · exact toNum_segment_lt s _ 2 100 hall ((List.take_subset _ _).trans (List.drop_subset _ _)) (by rw [List.length_take]; omega) (by norm_num)
      · exact toNum_segment_lt s _ 2 100 hall ((List.take_subset _ _).trans (List.drop_subset _ _)) (by rw [List.length_take]; omega) (by norm_num)
      · exact toNum_segment_lt s _ 3 1000 hall ((List.take_subset _ _).trans (List.drop_subset _ _)) (by rw [List.length_take]; omega) (by norm_num)
      · intro k0 hk0; simp at hk0
    case isFalse h11 =>
    split at h
    case isTrue hlens =>
      injection h with h
      subst h
      refine ⟨?_, ?_, ?_, ?_, ?_, ?_⟩
      · intro c0 hc0
        simp only [Option.some.injEq] at hc0
        subst hc0
        exact toNum_segment_lt s _ 2 100 hall (List.take_subset _ _) (by rw [List.length_take]; omega) (by norm_num)
      · exact toNum_segment_lt s _ 2 100 hall ((List.take_subset _ _).trans (List.drop_subset _ _)) (by rw [List.length_take]; omega) (by norm_num)
      · exact toNum_segment_lt s _ 2 100 hall ((List.take_subset _ _).trans (List.drop_subset _ _)) (by rw [List.length_take]; omega) (by norm_num)
      · exact toNum_segment_lt s _ 2 100 hall ((List.take_subset _ _).trans (List.drop_subset _ _)) (by rw [List.length_take]; omega) (by norm_num)
      · exact toNum_segment_lt s _ 3 1000 hall ((List.take_subset _ _).trans (List.drop_subset _ _)) (by rw [List.length_take]; omega) (by norm_num)
      · intro k0 hk0
        simp only [Option.some.injEq] at hk0
        subst hk0
        exact toNum_segment_lt s _ 1 10 hall (List.drop_subset _ _) (by rw [List.length_drop]; omega) (by norm_num)
    case isFalse h12 => cases h
  | cons c post =>
    simp only [hrest] at h
    have hallpre : ∀ x ∈ s.takeWhile isDigitChar, isDigitChar x = true :=
      fun x hx => List.mem_takeWhile_imp hx
    split at h
    case isFalse hsep => cases h
    case isTrue hsep =>
    split at h
    case isFalse hpost => cases h
    case isTrue hpost =>
    have hallpost : ∀ x ∈ post, isDigitChar x = true :=
      fun x hx => (List.all_eq_true.mp hpost) x hx
    split at h
    case isTrue hlens =>
      injection h with h
      subst h
      refine ⟨?_, ?_, ?_, ?_, ?_, ?_⟩
      · intro c0 hc0; simp at hc0
      · exact toNum_segment_lt (s.takeWhile isDigitChar) _ 2 100 hallpre (List.take_subset _ _) (by rw [List.length_take]; omega) (by norm_num)
      · exact toNum_segment_lt (s.takeWhile isDigitChar) _ 2 100 hallpre ((List.take_subset _ _).trans (List.drop_subset _ _)) (by rw [List.length_take]; omega) (by norm_num)
      · exact toNum_segment_lt (s.takeWhile isDigitChar) _ 2 100 hallpre (List.drop_subset _ _) (by rw [List.length_drop]; omega) (by norm_num)
      · exact toNum_segment_lt post post 3 1000 hallpost (fun x hx => hx) (by omega) (by norm_num)
      · intro k0 hk0; simp at hk0
    case isFalse hA =>
    split at h
    case isTrue hlens =>
      injection h with h
      subst h
      refine ⟨?_, ?_, ?_, ?_, ?_, ?_⟩
      · intro c0 hc0; simp at hc0
      · exact toNum_segment_lt (s.takeWhile isDigitChar) _ 2 100 hallpre (List.take_subset _ _) (by rw [List.length_take]; omega) (by norm_num)
      · exact toNum_segment_lt (s.takeWhile isDigitChar) _ 2 100 hallpre ((List.take_subset _ _).trans (List.drop_subset _ _)) (by rw [List.length_take]; omega) (by norm_num)
      · exact toNum_segment_lt (s.takeWhile isDigitChar) _ 2 100 hallpre (List.drop_subset _ _) (by rw [List.length_drop]; omega) (by norm_num)
      · exact toNum_segment_lt post _ 3 1000 hallpost (List.take_subset _ _) (by rw [List.length_take]; omega) (by norm_num)
      · intro k0 hk0
        simp only [Option.some.injEq] at hk0
        subst hk0
        exact toNum_segment_lt post _ 1 10 hallpost (List.drop_subset _ _) (by rw [List.length_drop]; omega) (by norm_num)
    case isFalse hB =>
    split at h
    case isTrue hlens =>
      injection h with h
      subst h
      refine ⟨?_, ?_, ?_, ?_, ?_, ?_⟩
      · intro c0 hc0
        simp only [Option.some.injEq] at hc0
        subst hc0
        exact toNum_segment_lt (s.takeWhile isDigitChar) _ 2 100 hallpre (List.take_subset _ _) (by rw [List.length_take]; omega) (by norm_num)
      · exact toNum_segment_lt (s.takeWhile isDigitChar) _ 2 100 hallpre ((List.take_subset _ _).trans (List.drop_subset _ _)) (by rw [List.length_take]; omega) (by norm_num)
      · exact toNum_segment_lt (s.takeWhile isDigitChar) _ 2 100 hallpre ((List.take_subset _ _).trans (List.drop_subset _ _)) (by rw [List.length_take]; omega) (by norm_num)
      · exact toNum_segment_lt (s.takeWhile isDigitChar) _ 2 100 hallpre (List.drop_subset _ _) (by rw [List.length_drop]; omega) (by norm_num)
      · exact toNum_segment_lt post post 3 1000 hallpost (fun x hx => hx) (by omega) (by norm_num)
      · intro k0 hk0; simp at hk0
    case isFalse hC =>
    split at h
    case isTrue hlens =>
      injection h with h
      subst h
      refine ⟨?_, ?_, ?_, ?_, ?_, ?_⟩
      · intro c0 hc0
        simp only [Option.some.injEq] at hc0
        subst hc0
        exact toNum_segment_lt (s.takeWhile isDigitChar) _ 2 100 hallpre (List.take_subset _ _) (by rw [List.length_take]; omega) (by norm_num)
      · exact toNum_segment_lt (s.takeWhile isDigitChar) _ 2 100 hallpre ((List.take_subset _ _).trans (List.drop_subset _ _)) (by rw [List.length_take]; omega) (by norm_num)
      · exact toNum_segment_lt (s.takeWhile isDigitChar) _ 2 100 hallpre ((List.take_subset _ _).trans (List.drop_subset _ _)) (by rw [List.length_take]; omega) (by norm_num)
      · exact toNum_segment_lt (s.takeWhile isDigitChar) _ 2 100 hallpre (List.drop_subset _ _) (by rw [List.length_drop]; omega) (by norm_num)
      · exact toNum_segment_lt post _ 3 1000 hallpost (List.take_subset _ _) (by rw [List.length_take]; omega) (by norm_num)
      · intro k0 hk0
        simp only [Option.some.injEq] at hk0
        subst hk0
        exact toNum_segment_lt post _ 1 10 hallpost (List.drop_subset _ _) (by rw [List.length_drop]; omega) (by norm_num)
    case isFalse hD => cases h

theorem i32OfU32_small (n : Nat) (h : n < 2147483648) : i32OfU32 n = (n : Int) := by
  unfold i32OfU32
  rw [Nat.mod_eq_of_lt (show n < U32 by unfold U32; omega)]
  simp [h]

theorem fromYmdOpt_some_inv (y : Int) (m d : Nat) (dd : NaiveDate)
    (h : fromYmdOpt y m d = some dd) :
    validYmd y m d = true ∧ dd = ⟨y, m, d⟩ := by
  unfold fromYmdOpt at h
  split at h
  · rename_i hv
    injection h with h
    exact ⟨hv, h.symm⟩
  · cases h

theorem resolveCentury_some (now c : Nat) (sep : Option Seperator)
    (year : Nat) :
    resolveCentury now (some c) sep year =
      if 100 ≤ u32sub now (c * 100 + year) then (c, .Plus) else (c, .Minus) :=
  rfl

theorem resolveCentury_none_none (now year : Nat) :
    resolveCentury now none none year =
      (u32sub now (u32sub now year % 100) / 100, .Minus) := rfl

theorem resolveCentury_none_minus (now year : Nat) :
    resolveCentury now none (some .Minus) year =
      (u32sub now (u32sub now year % 100) / 100, .Minus) := rfl

theorem resolveCentury_none_plus (now year : Nat) :
    resolveCentury now none (some .Plus) year =
      (u32sub (u32sub now 100) (u32sub (u32sub now 100) year % 100) / 100,
        .Plus) := rfl

theorem resolveCentury_inv (now : Nat) (cen : Option Nat)
    (sep : Option Seperator) (year : Nat) (h200 : 200 ≤ now)
    (h9999 : now ≤ 9999) (hcen : ∀ c, cen = some c → c < 100)
    (hy : year < 100) :
    (resolveCentury now cen sep year).1 * 100 + year ≤ 9999 ∧
      ((resolveCentury now cen sep year).2 = .Minus →
        (resolveCentury now cen sep year).1 * 100 + year ≤ now ∧
          now < (resolveCentury now cen sep year).1 * 100 + year + 100) ∧
      ((resolveCentury now cen sep year).2 = .Plus →
        (resolveCentury now cen sep year).1 * 100 + year + 100 ≤ now ∨
          now < (resolveCentury now cen sep year).1 * 100 + year) := by
  cases cen with
  | some c =>
    have hc : c < 100 := hcen c rfl
    rw [resolveCentury_some]
    have hus : u32sub now (c * 100 + year) =
        if c * 100 + year ≤ now then now - (c * 100 + year)
        else now + 4294967296 - (c * 100 + year) := by
      by_cases hvn : c * 100 + year ≤ now
      · rw [if_pos hvn]; unfold u32sub U32; omega
      · rw [if_neg hvn]; unfold u32sub U32; omega
    split
    next hge =>
      dsimp only
      refine ⟨by omega, ?_, ?_⟩
      · intro hm
        simp at hm
      · intro _
        rw [hus] at hge
        by_cases hvn : c * 100 + year ≤ now
        · rw [if_pos hvn] at hge
          left
          omega
        · right
          omega
    next hlt =>
      dsimp only
      refine ⟨by omega, ?_, ?_⟩
      · intro _
        rw [hus] at hlt
        by_cases hvn : c * 100 + year ≤ now
        · rw [if_pos hvn] at hlt
          omega
        · rw [if_neg hvn] at hlt
          omega
      · intro hpl
        simp at hpl
  | none =>
    have key : ∀ base : Nat, 100 ≤ base → base ≤ 9999 →
        u32sub base (u32sub base year % 100) / 100 * 100 + year ≤ base ∧
          base < u32sub base (u32sub base year % 100) / 100 * 100 + year + 100 := by
      intro base hb1 hb2
      have h1 : u32sub base year = base - year := by unfold u32sub U32; omega
      rw [h1]
      have h2 : u32sub base ((base - year) % 100) = base - (base - year) % 100 := by
        unfold u32sub U32; omega
      rw [h2]
      omega
    have hbase : u32sub now 100 = now - 100 := by unfold u32sub U32; omega
    cases sep with
    | none =>
      rw [resolveCentury_none_none]
      dsimp only
      obtain ⟨k1, k2⟩ := key now (by omega) h9999
      refine ⟨by omega, ?_, ?_⟩
      · intro _
        exact ⟨by omega, by omega⟩
      · intro hpl
        simp at hpl
    | some sv =>
      cases sv with
      | Minus =>
        rw [resolveCentury_none_minus]
        dsimp only
        obtain ⟨k1, k2⟩ := key now (by omega) h9999
        refine ⟨by omega, ?_, ?_⟩
        · intro _
          exact ⟨by omega, by omega⟩
        · intro hpl
          simp at hpl
      | Plus =>
        rw [resolveCentury_none_plus, hbase]
        dsimp only
        obtain ⟨k1, k2⟩ := key (now - 100) (by omega) (by omega)
        refine ⟨by omega, ?_, ?_⟩
        · intro hm
          simp at hm
        · intro _
          exact Or.inl (by omega)

theorem parseCaps_ok_inv (now : Nat) (caps : Captures) (p : Personnummer)
    (h200 : 200 ≤ now) (h9999 : now ≤ 9999)
    (hcen : ∀ c, caps.century = some c → c < 100) (hy : caps.year < 100)
    (hp : parseCaps now caps = .ok p) :
    ∃ y : Nat, p.date.year = (y : Int) ∧ y ≤ 9999 ∧
      validYmd p.date.year p.date.month p.date.day = true ∧
      p.date.month = caps.month ∧ p.date.day = caps.day % 60 ∧
      p.serial = caps.serial ∧ p.control = caps.control.getD 0 ∧
      p.coordination = decide (60 < caps.day) ∧
      (p.seperator = .Minus → y ≤ now ∧ now < y + 100) ∧
      (p.seperator = .Plus → y + 100 ≤ now ∨ now < y) := by
  obtain ⟨hle, hmin, hplus⟩ :=
    resolveCentury_inv now caps.century caps.sep caps.year h200 h9999 hcen hy
  unfold parseCaps at hp
  dsimp only at hp
  rw [Nat.mod_eq_of_lt (show (resolveCentury now caps.century caps.sep
      caps.year).1 * 100 + caps.year < U32 by unfold U32; omega)] at hp
  rw [i32OfU32_small _ (by omega)] at hp
  cases hd : fromYmdOpt
      (((resolveCentury now caps.century caps.sep caps.year).1 * 100 +
        caps.year : Nat) : Int) caps.month (caps.day % 60) with
  | none => rw [hd] at hp; cases hp
  | some dd =>
    rw [hd] at hp
    injection hp with hp
    subst hp
    obtain ⟨hv, hdd⟩ := fromYmdOpt_some_inv _ _ _ _ hd
    subst hdd
    exact ⟨(resolveCentury now caps.century caps.sep caps.year).1 * 100 +
      caps.year, rfl, by omega, hv, rfl, rfl, rfl, rfl, rfl,
      fun hm => hmin hm, fun hpl => hplus hpl⟩

theorem parse_ok_split (now : Nat) (s : List Char) (p : Personnummer)
    (hp : parse now s = .ok p) :
    ∃ caps, pnrMatch s = some caps ∧ parseCaps now caps = .ok p := by
  unfold parse at hp
  cases hm : pnrMatch s with
  | none => rw [hm] at hp; cases hp
  | some caps => rw [hm] at hp; exact ⟨caps, rfl, hp⟩


/-! ### Luhn lemmas and claim C3 -/

theorem luhnFold_eq_specSum (cs : List Char) :
    ∀ acc i : Nat, luhnFold acc i cs =
      acc + luhnSpecSum i (cs.map fun c =>
        if isDigitChar c then digitVal c else 0) := by
  induction cs with
  | nil => intro acc i; simp [luhnFold, luhnSpecSum]
  | cons c t ih =>
    intro acc i
    simp only [luhnFold, List.map_cons, luhnSpecSum]
    rw [ih]
    omega

theorem luhnSpecSum_le (ds : List Nat) :
    ∀ i : Nat, (∀ d ∈ ds, d ≤ 9) → luhnSpecSum i ds ≤ 9 * ds.length := by
  induction ds with
  | nil => intro i _; simp [luhnSpecSum]
  | cons d t ih =>
    intro i h
    have hd : d ≤ 9 := h d (by simp)
    have ht := ih (i + 1) (fun x hx => h x (by simp [hx]))
    simp only [luhnSpecSum, List.length_cons]
    by_cases hi : i % 2 = 0 <;> simp only [hi, if_true, if_false] <;>
      split <;> omega

/-- C3 counterexample: `luhn` truncates the transformed-digit sum with
`as u8` before the final `mod 10`, so on the 29-nine digit string (sum 261)
it returns 5 while the reference Luhn definition returns 9 — the claimed
equality on every digit string is false. -/
theorem c3_luhn_truncation_counterexample :
    (List.replicate 29 '9').map digitVal = List.replicate 29 9 ∧
      luhn (List.replicate 29 '9') = 5 ∧
      luhnSpec (List.replicate 29 9) = 9 := by decide

/-- C3 (amended): on every input, `luhn` is deterministic and its result
lies in `0..=9`; on every digit string whose length is at most 28 (so the
`as u8` truncation of the transformed-digit sum is the identity — in
particular on the 9-digit strings the program uses) it agrees with the
reference Luhn definition. -/
theorem c3_luhn_reference_amended (cs : List Char) :
    luhn cs ≤ 9 ∧ (∀ cs2 : List Char, cs2 = cs → luhn cs2 = luhn cs) ∧
      ((∀ c ∈ cs, isDigitChar c = true) → cs.length ≤ 28 →
        luhn cs = luhnSpec (cs.map digitVal)) := by
  refine ⟨?_, fun cs2 h2 => by rw [h2], ?_⟩
  · unfold luhn
    omega
  · intro hdig hlen
    have hmap : (cs.map fun c => if isDigitChar c then digitVal c else 0) =
        cs.map digitVal := by
      apply List.map_congr_left
      intro c hc
      rw [hdig c hc]
      simp
    have hsum := luhnFold_eq_specSum cs 0 0
    rw [hmap] at hsum
    have hle : luhnSpecSum 0 (cs.map digitVal) ≤ 9 * cs.length := by
      have := luhnSpecSum_le (cs.map digitVal) 0 (fun d hd => by
        obtain ⟨c, hc, rfl⟩ := List.mem_map.mp hd
        exact digitVal_le c (hdig c hc))
      simpa using this
    unfold luhn luhnSpec
    rw [hsum]
    omega

theorem c3_luhn_reference_amended_witness :
    luhn "900101001".toList ≤ 9 ∧
      luhn "900101001".toList = luhnSpec ("900101001".toList.map digitVal) := by
  have h := c3_luhn_reference_amended "900101001".toList
  exact ⟨h.1, h.2.2 (by decide) (by decide)⟩

/-! ### Claim C5: century resolution with omitted century -/

/-- C5: with the century omitted, the resolver uses base year `now`
(separator `-` or absent) or `now - 100` (separator `+`), computes the
century as `(base - ((base - year) mod 100)) / 100`, and the resolved
four-digit year `Y` satisfies `Y ≤ base`, `base - Y < 100` and
`Y mod 100 = year`. -/
theorem c5_century_resolution (now year : Nat) (sep : Option Seperator)
    (hy : year < 100) (h200 : 200 ≤ now) (h9999 : now ≤ 9999) :
    (resolveCentury now none sep year).2 =
      (match sep with | some .Plus => Seperator.Plus | _ => .Minus) ∧
      (resolveCentury now none sep year).1 =
        (baseYear now sep - (baseYear now sep - year) % 100) / 100 ∧
      (resolveCentury now none sep year).1 * 100 + year ≤ baseYear now sep ∧
      baseYear now sep - ((resolveCentury now none sep year).1 * 100 + year)
        < 100 ∧
      ((resolveCentury now none sep year).1 * 100 + year) % 100 = year := by
  have key : ∀ base : Nat, 100 ≤ base → base ≤ 9999 →
      u32sub base (u32sub base year % 100) / 100 =
          (base - (base - year) % 100) / 100 ∧
        u32sub base (u32sub base year % 100) / 100 * 100 + year ≤ base ∧
        base - (u32sub base (u32sub base year % 100) / 100 * 100 + year)
          < 100 ∧
        (u32sub base (u32sub base year % 100) / 100 * 100 + year) % 100 =
          year := by
    intro base hb1 hb2
    have h1 : u32sub base year = base - year := by unfold u32sub U32; omega
    rw [h1]
    have h2 : u32sub base ((base - year) % 100) =
        base - (base - year) % 100 := by
      unfold u32sub U32; omega
    rw [h2]
    omega
  have hbase : u32sub now 100 = now - 100 := by unfold u32sub U32; omega
  cases sep with
  | none =>
    rw [resolveCentury_none_none]
    obtain ⟨k0, k1, k2, k3⟩ := key now (by omega) h9999
    exact ⟨rfl, k0, k1, k2, k3⟩
  | some sv =>
    cases sv with
    | Minus =>
      rw [resolveCentury_none_minus]
      obtain ⟨k0, k1, k2, k3⟩ := key now (by omega) h9999
      exact ⟨rfl, k0, k1, k2, k3⟩
    | Plus =>
      rw [resolveCentury_none_plus, hbase]
      obtain ⟨k0, k1, k2, k3⟩ := key (now - 100) (by omega) (by omega)
      exact ⟨rfl, k0, k1, k2, k3⟩

theorem c5_century_resolution_witness :
    (resolveCentury 2026 none (some .Plus) 0).2 = Seperator.Plus ∧
      (resolveCentury 2026 none (some .Plus) 0).1 * 100 + 0 ≤
        baseYear 2026 (some .Plus) ∧
      (resolveCentury 2026 none (some .Plus) 0).1 = 19 := by
  have h := c5_century_resolution 2026 0 (some .Plus) (by decide) (by decide)
    (by decide)
  exact ⟨h.1, h.2.2.1, by decide⟩

/-! ### parseCaps inversion and claim C6 -/

theorem parseCaps_eq (now : Nat) (caps : Captures) :
    parseCaps now caps =
      match fromYmdOpt (resolvedYear now caps) caps.month (caps.day % 60) with
      | none => .error .InvalidDate
      | some d => .ok ⟨d, caps.serial, caps.control.getD 0,
          (resolveCentury now caps.century caps.sep caps.year).2,
          decide (60 < caps.day)⟩ := rfl

theorem parseCaps_ok_basic (now : Nat) (caps : Captures) (p : Personnummer)
    (hp : parseCaps now caps = .ok p) :
    validYmd p.date.year p.date.month p.date.day = true ∧
      p.date.year = resolvedYear now caps ∧ p.date.month = caps.month ∧
      p.date.day = caps.day % 60 ∧ p.serial = caps.serial ∧
      p.control = caps.control.getD 0 ∧
      p.coordination = decide (60 < caps.day) ∧
      p.seperator = (resolveCentury now caps.century caps.sep caps.year).2 := by
  rw [parseCaps_eq] at hp
  cases hd : fromYmdOpt (resolvedYear now caps) caps.month (caps.day % 60) with
  | none => rw [hd] at hp; cases hp
  | some dd =>
    rw [hd] at hp
    injection hp with hp
    subst hp
    obtain ⟨hv, hdd⟩ := fromYmdOpt_some_inv _ _ _ _ hd
    subst hdd
    exact ⟨hv, rfl, rfl, rfl, rfl, rfl, rfl, rfl⟩

/-- C6: with an explicit century the resolved year is exactly
`century*100 + year`, any `+`/`-` hint in the input is ignored, and the
stored separator is `Plus` iff the wrapping `u32` difference
`now - (century*100 + year)` (taken modulo `2^32`) is at least 100 — also
for full years beyond `now`. -/
theorem c6_explicit_century (now : Nat) (caps : Captures) (c : Nat)
    (hcc : caps.century = some c) (hc : c < 100) (hy : caps.year < 100) :
    (∀ p, parseCaps now caps = .ok p →
      p.date.year = ((c * 100 + caps.year : Nat) : Int) ∧
        (p.seperator = .Plus ↔ 100 ≤ u32sub now (c * 100 + caps.year)) ∧
        (p.seperator = .Minus ↔ u32sub now (c * 100 + caps.year) < 100)) ∧
      (∀ s1 s2 : Option Seperator,
        parseCaps now { caps with sep := s1 } =
          parseCaps now { caps with sep := s2 }) := by
  constructor
  · intro p hp
    obtain ⟨hv, hyear, hmon, hday, hser, hctl, hcoord, hsep⟩ :=
      parseCaps_ok_basic now caps p hp
    have hres : resolvedYear now caps =
        ((c * 100 + caps.year : Nat) : Int) := by
      unfold resolvedYear
      rw [hcc, resolveCentury_some]
      have h1 : (if 100 ≤ u32sub now (c * 100 + caps.year)
          then ((c, Seperator.Plus) : Nat × Seperator)
          else (c, .Minus)).1 = c := by
        split <;> rfl
      rw [h1, Nat.mod_eq_of_lt (show c * 100 + caps.year < U32 by
        unfold U32; omega), i32OfU32_small _ (by omega)]
    rw [hsep, hcc, resolveCentury_some]
    refine ⟨by rw [hyear, hres], ?_, ?_⟩
    · by_cases hcond : 100 ≤ u32sub now (c * 100 + caps.year)
      · rw [if_pos hcond]
        exact ⟨fun _ => hcond, fun _ => rfl⟩
      · rw [if_neg hcond]
        constructor
        · intro hpm
          cases hpm
        · intro hcc2
          exact absurd hcc2 hcond
    · by_cases hcond : 100 ≤ u32sub now (c * 100 + caps.year)
      · rw [if_pos hcond]
        constructor
        · intro hpm
          cases hpm
        · intro hlt
          omega
      · rw [if_neg hcond]
        exact ⟨fun _ => by omega, fun _ => rfl⟩
  · intro s1 s2
    unfold parseCaps
    dsimp only
    rw [hcc, resolveCentury_some, resolveCentury_some]

theorem c6_explicit_century_witness :
    pn6.date.year = (2100 : Int) ∧ pn6.seperator = Seperator.Plus := by
  have h := (c6_explicit_century 2026 caps6 21 rfl (by decide) (by decide)).1
    pn6 (by decide)
  exact ⟨h.1, h.2.1.mpr (by decide)⟩

/-! ### Claim C7: date construction and coordination decoding -/

theorem validYmd_false_of (y : Int) (m d : Nat)
    (h : d = 0 ∨ 31 < d ∨ m = 0 ∨ 12 < m) : validYmd y m d = false := by
  cases hv : validYmd y m d
  · rfl
  · have := validYmd_inv y m d hv
    omega

/-- C7: if the encoded day exceeds 60 the date is built from `day mod 60`
(equal to `day - 60` for days `61..91`) with the coordination flag set; a
day of at most 31 builds an ordinary date with the flag unset; encoded days
in `(31, 60]`, months outside `1..=12` and any digits that do not form a
real calendar date of the resolved year fail with `InvalidDate`. -/
theorem c7_date_construction (now : Nat) (caps : Captures) :
    (∀ p, parseCaps now caps = .ok p →
      (60 < caps.day → p.coordination = true ∧ p.date.day = caps.day % 60 ∧
        (caps.day ≤ 91 → p.date.day = caps.day - 60)) ∧
      (caps.day ≤ 31 → p.coordination = false ∧ p.date.day = caps.day)) ∧
    (31 < caps.day → caps.day ≤ 60 →
      parseCaps now caps = .error .InvalidDate) ∧
    (caps.month = 0 ∨ 12 < caps.month →
      parseCaps now caps = .error .InvalidDate) ∧
    (validYmd (resolvedYear now caps) caps.month (caps.day % 60) = false →
      parseCaps now caps = .error .InvalidDate) := by
  have herr : validYmd (resolvedYear now caps) caps.month (caps.day % 60) =
      false → parseCaps now caps = .error .InvalidDate := by
    intro hfalse
    rw [parseCaps_eq]
    rw [show fromYmdOpt (resolvedYear now caps) caps.month (caps.day % 60) =
      none from by unfold fromYmdOpt; rw [hfalse]; simp]
  refine ⟨?_, ?_, ?_, herr⟩
  · intro p hp
    obtain ⟨hv, hyear, hmon, hday, hser, hctl, hcoord, hsep⟩ :=
      parseCaps_ok_basic now caps p hp
    constructor
    · intro h60
      refine ⟨?_, hday, fun h91 => ?_⟩
      · rw [hcoord]
        simp [h60]
      · rw [hday]
        omega
    · intro h31
      constructor
      · rw [hcoord]
        simp
        omega
      · rw [hday]
        omega
  · intro h31 h60
    apply herr
    apply validYmd_false_of
    omega
  · intro hm
    apply herr
    apply validYmd_false_of
    omega

theorem c7_date_construction_witness :
    parseCaps 2026 caps7 = .error .InvalidDate :=
  (c7_date_construction 2026 caps7).2.1 (by decide) (by decide)

/-! ### The two failure channels over the ASCII-digit grammar -/

/-- Over the ASCII-digit grammar `pnrMatch`, `parse` fails with
`InvalidInput` exactly when the grammar does not match, fails with
`InvalidDate` exactly when the grammar matches but the digits do not encode
a real calendar date, and succeeds on every grammar-matching
calendrically-valid string — the checksum plays no part in parsing
(`calendarOk` does not mention `luhn` or the control digit, and `valid` is
total on parsed records).  This covers only inputs without non-ASCII
decimal digits: the source regex's Unicode `\d` also matches those, with
`str::parse` coercing such captures to 0, and the exact Unicode table is
the (unpinned) regex crate's, so the full-Unicode boundary is not pinned
down by the repository. -/
theorem parse_error_channels_ascii (now : Nat) (s : List Char) :
    (parse now s = .error .InvalidInput ↔ pnrMatch s = none) ∧
      (parse now s = .error .InvalidDate ↔
        ∃ caps, pnrMatch s = some caps ∧ calendarOk now caps = false) ∧
      (∀ caps, pnrMatch s = some caps → calendarOk now caps = true →
        ∃ p, parse now s = .ok p) := by
  cases hm : pnrMatch s with
  | none =>
    unfold parse
    rw [hm]
    refine ⟨by simp, ?_, ?_⟩
    · constructor
      · intro h
        simp at h
      · rintro ⟨caps, hcaps, _⟩
        cases hcaps
    · intro caps hcaps
      cases hcaps
  | some caps =>
    unfold parse
    rw [hm]
    dsimp only
    by_cases hok : calendarOk now caps = true
    · have hsome : ∃ p, parseCaps now caps = .ok p := by
        rw [parseCaps_eq]
        unfold fromYmdOpt
        rw [show validYmd (resolvedYear now caps) caps.month (caps.day % 60) =
          true from hok]
        simp
      obtain ⟨p, hp⟩ := hsome
      rw [hp]
      refine ⟨?_, ?_, fun caps' hcaps' _ => ⟨p, rfl⟩⟩
      · constructor
        · intro h
          simp at h
        · intro h
          cases h
      · constructor
        · intro h
          simp at h
        · rintro ⟨caps', hcaps', hfalse⟩
          injection hcaps' with hcc
          subst hcc
          cases hok.symm.trans hfalse
    · have hfalse : calendarOk now caps = false := by
        cases hcv : calendarOk now caps
        · rfl
        · exact absurd hcv hok
      have herr : parseCaps now caps = .error .InvalidDate := by
        rw [parseCaps_eq]
        unfold fromYmdOpt
        rw [show validYmd (resolvedYear now caps) caps.month (caps.day % 60) =
          false from hfalse]
        simp
      rw [herr]
      refine ⟨?_, ?_, ?_⟩
      · constructor
        · intro h
          simp at h
        · intro h
          cases h
      · constructor
        · intro _
          exact ⟨caps, rfl, hfalse⟩
        · intro _
          rfl
      · intro caps' hcaps' htrue
        injection hcaps' with hcc
        subst hcc
        cases hfalse.symm.trans htrue

theorem parse_error_channels_ascii_witness :
    parse 2026 "not-a-date".toList = .error .InvalidInput :=
  (parse_error_channels_ascii 2026 "not-a-date".toList).1.mpr (by decide)

/-! ### Claim C10: the stored day is the reduced calendar day -/

/-- C10: for every successfully parsed record the `day` accessor returns
the stored calendar day, which lies in `1..=31` (for a coordination number
it is the encoded day minus 60, never the encoded day), the stored date is
a real calendar date, and the `+60` offset is re-applied only through
`dayOrCoordination` (the helper `format` and `valid` use). -/
theorem c10_day_invariant (now : Nat) (s : List Char) (caps : Captures)
    (p : Personnummer) (hm : pnrMatch s = some caps)
    (hp : parse now s = .ok p) :
    p.day = p.date.day ∧ 1 ≤ p.date.day ∧ p.date.day ≤ 31 ∧
      validYmd p.date.year p.date.month p.date.day = true ∧
      (p.coordination = true → 60 < caps.day ∧ p.date.day = caps.day - 60 ∧
        p.dayOrCoordination = p.date.day + 60) ∧
      (p.coordination = false → p.dayOrCoordination = p.date.day) := by
  obtain ⟨caps', hm', hpc⟩ := parse_ok_split now s p hp
  have hcc := hm.symm.trans hm'
  injection hcc with hcc
  subst hcc
  obtain ⟨hcen, hy, hmon, hday, hser, hctl⟩ := pnrMatch_bounds s caps hm
  obtain ⟨hv, hyear, hmon2, hday2, hser2, hctl2, hcoord, hsep⟩ :=
    parseCaps_ok_basic now caps p hpc
  obtain ⟨hb1, hb2, hb3, hb4, hb5, hb6⟩ := validYmd_inv _ _ _ hv
  refine ⟨rfl, by omega, by omega, hv, ?_, ?_⟩
  · intro hco
    have h60 : 60 < caps.day := by
      rw [hcoord] at hco
      exact of_decide_eq_true hco
    refine ⟨h60, ?_, ?_⟩
    · rw [hday2]
      omega
    · simp [Personnummer.dayOrCoordination, hco]
  · intro hco
    simp [Personnummer.dayOrCoordination, hco]

theorem c10_day_invariant_witness :
    pn10.date.day = caps10.day - 60 ∧
      validYmd pn10.date.year pn10.date.month pn10.date.day = true := by
  have h := c10_day_invariant 2026 "800161-3294".toList caps10 pn10
    (by decide) (by decide)
  exact ⟨(h.2.2.2.2.1 rfl).2.1, h.2.2.2.1⟩

/-! ### Claims C2 and C8: the checksum predicate -/

theorem valid_iff_core (p : Personnummer) (y : Nat)
    (hy : p.date.year = (y : Int)) (hm : p.date.month < 100)
    (hd : p.dayOrCoordination < 100) (hs : p.serial < 1000) :
    p.toControl = List.map Nat.digitChar (fmtNat 2 (y % 100) ++
        fmtNat 2 p.date.month ++ fmtNat 2 p.dayOrCoordination ++
        fmtNat 3 p.serial) ∧
      (fmtNat 2 (y % 100) ++ fmtNat 2 p.date.month ++
        fmtNat 2 p.dayOrCoordination ++ fmtNat 3 p.serial).length = 9 ∧
      (p.valid = true ↔ 0 < p.serial ∧
        luhn (List.map Nat.digitChar (fmtNat 2 (y % 100) ++
          fmtNat 2 p.date.month ++ fmtNat 2 p.dayOrCoordination ++
          fmtNat 3 p.serial)) = p.control) := by
  have htc : p.toControl = List.map Nat.digitChar (fmtNat 2 (y % 100) ++
      fmtNat 2 p.date.month ++ fmtNat 2 p.dayOrCoordination ++
      fmtNat 3 p.serial) := by
    unfold Personnummer.toControl
    rw [hy]
    have h1 : Int.tmod (y : Int) 100 = ((y % 100 : Nat) : Int) := rfl
    rw [h1]
    have h2 : intFmt 2 ((y % 100 : Nat) : Int) = digitsPad 2 (y % 100) := by
      unfold intFmt
      rw [if_pos (Int.natCast_nonneg _), Int.toNat_ofNat]
    rw [h2]
    unfold digitsPad
    simp [List.map_append]
  have hlen : (fmtNat 2 (y % 100) ++ fmtNat 2 p.date.month ++
      fmtNat 2 p.dayOrCoordination ++ fmtNat 3 p.serial).length = 9 := by
    rw [fmtNat_two (y % 100) (by omega), fmtNat_two _ hm, fmtNat_two _ hd,
      fmtNat_three _ hs]
    simp
  refine ⟨htc, hlen, ?_⟩
  unfold Personnummer.valid
  rw [htc]
  simp [Bool.and_eq_true, decide_eq_true_eq]

/-- C2: for every successfully parsed record, `valid` is true iff
`serial > 0` and the Luhn digit of the 9-digit string formed by
`year mod 100`, the month, the encoded day (with the `+60` coordination
offset) and the serial, each zero-padded to its width, equals the stored
control digit. -/
theorem c2_valid_iff_luhn (now : Nat) (s : List Char) (p : Personnummer)
    (h200 : 200 ≤ now) (h9999 : now ≤ 9999) (hp : parse now s = .ok p) :
    (p.valid = true ↔ 0 < p.serial ∧
      luhn (List.map Nat.digitChar (fmtNat 2 (p.date.year.toNat % 100) ++
        fmtNat 2 p.date.month ++ fmtNat 2 p.dayOrCoordination ++
        fmtNat 3 p.serial)) = p.control) ∧
      (fmtNat 2 (p.date.year.toNat % 100) ++ fmtNat 2 p.date.month ++
        fmtNat 2 p.dayOrCoordination ++ fmtNat 3 p.serial).length = 9 := by
  obtain ⟨caps, hm, hpc⟩ := parse_ok_split now s p hp
  obtain ⟨hcen, hy, hmon, hday, hser, hctl⟩ := pnrMatch_bounds s caps hm
  obtain ⟨yy, hyy, hyb, hv, hmon2, hday2, hser2, hctl2, hcoord, hsepm, hsepp⟩ :=
    parseCaps_ok_inv now caps p h200 h9999 hcen hy hpc
  obtain ⟨hb1, hb2, hb3, hb4, hb5, hb6⟩ := validYmd_inv _ _ _ hv
  have htn : p.date.year.toNat = yy := by rw [hyy]; exact Int.toNat_ofNat yy
  have hdoc : p.dayOrCoordination < 100 := by
    unfold Personnummer.dayOrCoordination
    split <;> omega
  have hscap : p.serial < 1000 := by omega
  have core := valid_iff_core p yy hyy (by omega) hdoc hscap
  rw [htn]
  exact ⟨core.2.2, core.2.1⟩

theorem c2_valid_iff_luhn_witness : pn2.valid = true := by
  have h := c2_valid_iff_luhn 2026 "19900101-0017".toList pn2 (by decide)
    (by decide) (by decide)
  exact h.1.mpr (by decide)

/-- C8: a grammar-matching input without a trailing control digit parses
(date permitting) with stored control digit 0, so `valid` can only be true
when the serial is positive and the true Luhn digit of the 9 digits is 0. -/
theorem c8_missing_control (now : Nat) (s : List Char) (caps : Captures)
    (p : Personnummer) (h200 : 200 ≤ now) (h9999 : now ≤ 9999)
    (hm : pnrMatch s = some caps) (hc : caps.control = none)
    (hp : parse now s = .ok p) :
    p.control = 0 ∧ (p.valid = true ↔ 0 < p.serial ∧
      luhn (List.map Nat.digitChar (fmtNat 2 (p.date.year.toNat % 100) ++
        fmtNat 2 p.date.month ++ fmtNat 2 p.dayOrCoordination ++
        fmtNat 3 p.serial)) = 0) := by
  obtain ⟨caps', hm', hpc⟩ := parse_ok_split now s p hp
  have hcc := hm.symm.trans hm'
  injection hcc with hcc
  subst hcc
  obtain ⟨hcen, hy, hmon, hday, hser, hctl⟩ := pnrMatch_bounds s caps hm
  obtain ⟨yy, hyy, hyb, hv, hmon2, hday2, hser2, hctl2, hcoord, hsepm, hsepp⟩ :=
    parseCaps_ok_inv now caps p h200 h9999 hcen hy hpc
  obtain ⟨hb1, hb2, hb3, hb4, hb5, hb6⟩ := validYmd_inv _ _ _ hv
  have hzero : p.control = 0 := by
    rw [hctl2, hc]
    rfl
  have htn : p.date.year.toNat = yy := by rw [hyy]; exact Int.toNat_ofNat yy
  have hdoc : p.dayOrCoordination < 100 := by
    unfold Personnummer.dayOrCoordination
    split <;> omega
  have hscap : p.serial < 1000 := by omega
  have core := valid_iff_core p yy hyy (by omega) hdoc hscap
  rw [htn, hzero] at *
  exact ⟨rfl, core.2.2⟩

theorem c8_missing_control_witness : pn8.control = 0 :=
  (c8_missing_control 2026 "800101329".toList caps8 pn8 (by decide)
    (by decide) (by decide) (by decide) (by decide)).1

/-! ### Claim C9: concrete vectors -/

/-- C9 counterexample: `"800161-3294"` parses (serial 329, control 4) but
its true Luhn digit is 1, so `valid()` is false — the claimed vector is not
checksum-valid (the repository's own test suite uses `"800161-3291"`). -/
theorem c9_vector_counterexample :
    (parse 2026 "800161-3294".toList).map Personnummer.valid =
      .ok false := by decide

/-- C9 (amended): at the present date, `"19900101-0017"` parses with
`valid()` true, `is_male()` true and no coordination flag;
`"800161-3294"` parses with coordination true and `day() = 1` but
`valid()` false (the checksum-valid variant is `"800161-3291"`);
`"000101+2392"` parses with `valid()` true and year 1900;
`"19901301-1111"` fails with `InvalidDate`; `"not-a-date"` fails with
`InvalidFormat` (`InvalidInput`). -/
theorem c9_vectors_amended :
    (parse 2026 "19900101-0017".toList).map
        (fun p => (p.valid, p.isMale, p.isCoordinationNumber)) =
      .ok (true, true, false) ∧
      (parse 2026 "800161-3294".toList).map
          (fun p => (p.valid, p.isCoordinationNumber, p.day)) =
        .ok (false, true, 1) ∧
      (parse 2026 "800161-3291".toList).map Personnummer.valid = .ok true ∧
      (parse 2026 "000101+2392".toList).map
          (fun p => (p.valid, p.year)) = .ok (true, 1900) ∧
      parse 2026 "19901301-1111".toList = .error .InvalidDate ∧
      parse 2026 "not-a-date".toList = .error .InvalidInput := by decide

/-! ### Matcher evaluation on formatted output (for claim C4) -/

theorem toNum_two (a b : Nat) (ha : a < 10) (hb : b < 10) :
    toNum (List.map Nat.digitChar [a, b]) = 10 * a + b := by
  unfold toNum
  simp only [List.map_cons, List.map_nil, List.foldl_cons, List.foldl_nil,
    digitVal_digitChar a ha, digitVal_digitChar b hb]
  ring

theorem toNum_three (a b c : Nat) (ha : a < 10) (hb : b < 10) (hc : c < 10) :
    toNum (List.map Nat.digitChar [a, b, c]) = 100 * a + (10 * b + c) := by
  unfold toNum
  simp only [List.map_cons, List.map_nil, List.foldl_cons, List.foldl_nil,
    digitVal_digitChar a ha, digitVal_digitChar b hb, digitVal_digitChar c hc]
  ring

theorem toNum_one (a : Nat) (ha : a < 10) :
    toNum (List.map Nat.digitChar [a]) = a := by
  unfold toNum
  simp [digitVal_digitChar a ha]

theorem pnrMatch_digits12 (d1 d2 d3 d4 d5 d6 d7 d8 d9 d10 d11 d12 : Nat)
    (h1 : d1 < 10) (h2 : d2 < 10) (h3 : d3 < 10) (h4 : d4 < 10)
    (h5 : d5 < 10) (h6 : d6 < 10) (h7 : d7 < 10) (h8 : d8 < 10)
    (h9 : d9 < 10) (h10 : d10 < 10) (h11 : d11 < 10) (h12 : d12 < 10) :
    pnrMatch (List.map Nat.digitChar
        [d1, d2, d3, d4, d5, d6, d7, d8, d9, d10, d11, d12]) =
      some ⟨some (10 * d1 + d2), 10 * d3 + d4, 10 * d5 + d6, 10 * d7 + d8,
        none, 100 * d9 + (10 * d10 + d11), some d12⟩ := by
  have e1 := isDigitChar_digitChar d1 h1
  have e2 := isDigitChar_digitChar d2 h2
  have e3 := isDigitChar_digitChar d3 h3
  have e4 := isDigitChar_digitChar d4 h4
  have e5 := isDigitChar_digitChar d5 h5
  have e6 := isDigitChar_digitChar d6 h6
  have e7 := isDigitChar_digitChar d7 h7
  have e8 := isDigitChar_digitChar d8 h8
  have e9 := isDigitChar_digitChar d9 h9
  have e10 := isDigitChar_digitChar d10 h10
  have e11 := isDigitChar_digitChar d11 h11
  have e12 := isDigitChar_digitChar d12 h12
  have hdw : List.dropWhile isDigitChar (List.map Nat.digitChar
      [d1, d2, d3, d4, d5, d6, d7, d8, d9, d10, d11, d12]) = [] := by
    simp [e1, e2, e3, e4, e5, e6, e7, e8, e9, e10, e11, e12]
  unfold pnrMatch
  simp only [hdw, List.length_map, List.length_cons, List.length_nil]
  norm_num
  exact ⟨toNum_two d1 d2 h1 h2, toNum_two d3 d4 h3 h4, toNum_two d5 d6 h5 h6,
    toNum_two d7 d8 h7 h8, toNum_three d9 d10 d11 h9 h10 h11,
    toNum_one d12 h12⟩

theorem pnrMatch_sep64 (d1 d2 d3 d4 d5 d6 : Nat) (sp : Seperator)
    (e1 e2 e3 e4 : Nat) (h1 : d1 < 10) (h2 : d2 < 10) (h3 : d3 < 10)
    (h4 : d4 < 10) (h5 : d5 < 10) (h6 : d6 < 10) (k1 : e1 < 10)
    (k2 : e2 < 10) (k3 : e3 < 10) (k4 : e4 < 10) :
    pnrMatch (List.map Nat.digitChar [d1, d2, d3, d4, d5, d6] ++
        sepChar sp :: List.map Nat.digitChar [e1, e2, e3, e4]) =
      some ⟨none, 10 * d1 + d2, 10 * d3 + d4, 10 * d5 + d6, some sp,
        100 * e1 + (10 * e2 + e3), some e4⟩ := by
  have f1 := isDigitChar_digitChar d1 h1
  have f2 := isDigitChar_digitChar d2 h2
  have f3 := isDigitChar_digitChar d3 h3
  have f4 := isDigitChar_digitChar d4 h4
  have f5 := isDigitChar_digitChar d5 h5
  have f6 := isDigitChar_digitChar d6 h6
  have g1 := isDigitChar_digitChar e1 k1
  have g2 := isDigitChar_digitChar e2 k2
  have g3 := isDigitChar_digitChar e3 k3
  have g4 := isDigitChar_digitChar e4 k4
  have hnd : isDigitChar (sepChar sp) = false := by cases sp <;> rfl
  have hdw : List.dropWhile isDigitChar
      (List.map Nat.digitChar [d1, d2, d3, d4, d5, d6] ++
        sepChar sp :: List.map Nat.digitChar [e1, e2, e3, e4]) =
      sepChar sp :: List.map Nat.digitChar [e1, e2, e3, e4] := by
    simp [f1, f2, f3, f4, f5, f6, hnd]
  have htw : List.takeWhile isDigitChar
      (List.map Nat.digitChar [d1, d2, d3, d4, d5, d6] ++
        sepChar sp :: List.map Nat.digitChar [e1, e2, e3, e4]) =
      List.map Nat.digitChar [d1, d2, d3, d4, d5, d6] := by
    simp [f1, f2, f3, f4, f5, f6, hnd]
  unfold pnrMatch
  simp only [hdw, htw]
  cases sp with
  | Minus =>
    norm_num [sepChar, g1, g2, g3, g4]
    exact ⟨toNum_two d1 d2 h1 h2, toNum_two d3 d4 h3 h4,
      toNum_two d5 d6 h5 h6, toNum_three e1 e2 e3 k1 k2 k3,
      toNum_one e4 k4⟩
  | Plus =>
    norm_num [sepChar, g1, g2, g3, g4]
    refine ⟨toNum_two d1 d2 h1 h2, toNum_two d3 d4 h3 h4,
      toNum_two d5 d6 h5 h6, ?_, toNum_three e1 e2 e3 k1 k2 k3,
      toNum_one e4 k4⟩
    intro hcm
    exact absurd hcm (by decide)

/-! ### Claim C4: round-trip -/

theorem formatLong_digits (p : Personnummer) (y : Nat)
    (hy : p.date.year = (y : Int)) (hyb : y < 10000)
    (hm : p.date.month < 100) (hd : p.dayOrCoordination < 100)
    (hs : p.serial < 1000) (hc : p.control < 10) :
    p.formatLong = List.map Nat.digitChar
      [y / 1000, y / 100 % 10, y / 10 % 10, y % 10,
       p.date.month / 10, p.date.month % 10,
       p.dayOrCoordination / 10, p.dayOrCoordination % 10,
       p.serial / 100, p.serial / 10 % 10, p.serial % 10, p.control] := by
  unfold Personnummer.formatLong
  rw [hy]
  have h1 : intFmt 4 ((y : Nat) : Int) = digitsPad 4 y := by
    unfold intFmt
    rw [if_pos (Int.natCast_nonneg _), Int.toNat_ofNat]
  rw [h1]
  unfold digitsPad natChars
  rw [fmtNat_four y hyb, fmtNat_two _ hm, fmtNat_two _ hd, fmtNat_three _ hs,
    natToDigits_small _ hc]
  simp

theorem formatShort_digits (p : Personnummer) (y : Nat)
    (hy : p.date.year = (y : Int)) (hm : p.date.month < 100)
    (hd : p.dayOrCoordination < 100) (hs : p.serial < 1000)
    (hc : p.control < 10) :
    p.formatShort = List.map Nat.digitChar
        [y % 100 / 10, y % 100 % 10, p.date.month / 10, p.date.month % 10,
         p.dayOrCoordination / 10, p.dayOrCoordination % 10] ++
      sepChar p.seperator :: List.map Nat.digitChar
        [p.serial / 100, p.serial / 10 % 10, p.serial % 10, p.control] := by
  unfold Personnummer.formatShort
  rw [hy]
  have h0 : Int.tmod ((y : Nat) : Int) 100 = ((y % 100 : Nat) : Int) := rfl
  rw [h0]
  have h1 : intFmt 2 ((y % 100 : Nat) : Int) = digitsPad 2 (y % 100) := by
    unfold intFmt
    rw [if_pos (Int.natCast_nonneg _), Int.toNat_ofNat]
  rw [h1]
  unfold digitsPad natChars
  rw [fmtNat_two (y % 100) (by omega), fmtNat_two _ hm, fmtNat_two _ hd,
    fmtNat_three _ hs, natToDigits_small _ hc]
  simp

/-- C4 counterexample: at the present date `"17000101-0017"` parses to year
1700, its short format is `"000101+0017"`, and re-parsing that short format
yields year 1900 — the short-format round trip does not preserve the birth
date for records whose year lies outside the two-century window ending at
"now". -/
theorem c4_short_roundtrip_counterexample :
    (parse 2026 "17000101-0017".toList).map Personnummer.year = .ok 1700 ∧
      (parse 2026 "17000101-0017".toList).map Personnummer.formatShort =
        .ok "000101+0017".toList ∧
      (parse 2026 "000101+0017".toList).map Personnummer.year =
        .ok 1900 := by decide

/-- C4 (amended): for every successfully parsed record (at a fixed `now`),
re-parsing the long format always succeeds and reproduces the birth date,
serial, control digit and coordination flag; re-parsing the short format
does so whenever the resolved year lies in the two-century window
`(now - 200, now]` (outside it the two-digit year plus separator cannot
encode the year, as the counterexample shows). -/
theorem c4_roundtrip_amended (now : Nat) (s : List Char) (p : Personnummer)
    (h200 : 200 ≤ now) (h9999 : now ≤ 9999) (hp : parse now s = .ok p) :
    (∃ q, parse now p.formatLong = .ok q ∧ q.date = p.date ∧
      q.serial = p.serial ∧ q.control = p.control ∧
      q.coordination = p.coordination) ∧
    (((now : Int) - 200 < p.date.year ∧ p.date.year ≤ (now : Int)) →
      ∃ q, parse now p.formatShort = .ok q ∧ q.date = p.date ∧
        q.serial = p.serial ∧ q.control = p.control ∧
        q.coordination = p.coordination) := by
  obtain ⟨caps, hm, hpc⟩ := parse_ok_split now s p hp
  obtain ⟨hcen, hyc, hmonc, hdayc, hserc, hctlc⟩ := pnrMatch_bounds s caps hm
  obtain ⟨y, hy, hyb, hv, hmon2, hday2, hser2, hctl2, hcoord, hsepm, hsepp⟩ :=
    parseCaps_ok_inv now caps p h200 h9999 hcen hyc hpc
  obtain ⟨hb1, hb2, hb3, hb4, hb5, hb6⟩ := validYmd_inv _ _ _ hv
  have hm100 : p.date.month < 100 := by omega
  have hd100 : p.dayOrCoordination < 100 := by
    unfold Personnummer.dayOrCoordination
    split <;> omega
  have hs1000 : p.serial < 1000 := by omega
  have hc10 : p.control < 10 := by
    rw [hctl2]
    cases hcc : caps.control with
    | none => simp
    | some k =>
      have := hctlc k hcc
      simpa using this
  have hyblt : y < 10000 := by omega
  have hdoc60 : p.dayOrCoordination % 60 = p.date.day := by
    unfold Personnummer.dayOrCoordination
    split <;> omega
  have hdco : decide (60 < p.dayOrCoordination) = p.coordination := by
    unfold Personnummer.dayOrCoordination
    cases hco : p.coordination with
    | false =>
      simp only [hco, Bool.false_eq_true, if_false, decide_eq_false_iff_not]
      omega
    | true =>
      simp only [hco, if_true, decide_eq_true_eq]
      omega
  have hfact : fromYmdOpt ((y : Nat) : Int) p.date.month p.date.day =
      some ⟨((y : Nat) : Int), p.date.month, p.date.day⟩ := by
    unfold fromYmdOpt
    rw [show validYmd ((y : Nat) : Int) p.date.month p.date.day = true from by
      rw [← hy]; exact hv]
    simp
  constructor
  · have hmatch := pnrMatch_digits12 (y / 1000) (y / 100 % 10) (y / 10 % 10)
      (y % 10) (p.date.month / 10) (p.date.month % 10)
      (p.dayOrCoordination / 10) (p.dayOrCoordination % 10)
      (p.serial / 100) (p.serial / 10 % 10) (p.serial % 10) p.control
      (by omega) (by omega) (by omega) (by omega) (by omega) (by omega)
      (by omega) (by omega) (by omega) (by omega) (by omega) hc10
    have hcapeq : (⟨some (10 * (y / 1000) + y / 100 % 10),
        10 * (y / 10 % 10) + y % 10,
        10 * (p.date.month / 10) + p.date.month % 10,
        10 * (p.dayOrCoordination / 10) + p.dayOrCoordination % 10, none,
        100 * (p.serial / 100) + (10 * (p.serial / 10 % 10) + p.serial % 10),
        some p.control⟩ : Captures) =
        ⟨some (y / 100), y % 100, p.date.month, p.dayOrCoordination, none,
          p.serial, some p.control⟩ := by
      rw [show 10 * (y / 1000) + y / 100 % 10 = y / 100 from by omega,
        show 10 * (y / 10 % 10) + y % 10 = y % 100 from by omega,
        show 10 * (p.date.month / 10) + p.date.month % 10 = p.date.month from
          by omega,
        show 10 * (p.dayOrCoordination / 10) + p.dayOrCoordination % 10 =
          p.dayOrCoordination from by omega,
        show 100 * (p.serial / 100) + (10 * (p.serial / 10 % 10) +
          p.serial % 10) = p.serial from by omega]
    have hpl : parse now p.formatLong = parseCaps now
        ⟨some (y / 100), y % 100, p.date.month, p.dayOrCoordination, none,
          p.serial, some p.control⟩ := by
      unfold parse
      rw [formatLong_digits p y hy hyblt hm100 hd100 hs1000 hc10, hmatch,
        hcapeq]
    have hry : resolvedYear now ⟨some (y / 100), y % 100, p.date.month,
        p.dayOrCoordination, none, p.serial, some p.control⟩ =
        ((y : Nat) : Int) := by
      unfold resolvedYear
      dsimp only
      rw [resolveCentury_some]
      have hfst : (if 100 ≤ u32sub now (y / 100 * 100 + y % 100)
          then ((y / 100, Seperator.Plus) : Nat × Seperator)
          else (y / 100, .Minus)).1 = y / 100 := by
        split <;> rfl
      rw [hfst, show y / 100 * 100 + y % 100 = y from by omega,
        Nat.mod_eq_of_lt (show y < U32 by unfold U32; omega),
        i32OfU32_small _ (by omega)]
    rw [hpl, parseCaps_eq]
    dsimp only
    rw [hry, hdoc60, hfact]
    refine ⟨_, rfl, ?_, rfl, rfl, hdco⟩
    rw [← hy]
  · intro hw
    obtain ⟨hw1, hw2⟩ := hw
    have hylow : now < y + 200 := by
      rw [hy] at hw1
      omega
    have hyhi : y ≤ now := by
      rw [hy] at hw2
      exact_mod_cast hw2
    have hmatch := pnrMatch_sep64 (y % 100 / 10) (y % 100 % 10)
      (p.date.month / 10) (p.date.month % 10) (p.dayOrCoordination / 10)
      (p.dayOrCoordination % 10) p.seperator (p.serial / 100)
      (p.serial / 10 % 10) (p.serial % 10) p.control
      (by omega) (by omega) (by omega) (by omega) (by omega) (by omega)
      (by omega) (by omega) (by omega) hc10
    have hcapeq : (⟨none, 10 * (y % 100 / 10) + y % 100 % 10,
        10 * (p.date.month / 10) + p.date.month % 10,
        10 * (p.dayOrCoordination / 10) + p.dayOrCoordination % 10,
        some p.seperator,
        100 * (p.serial / 100) + (10 * (p.serial / 10 % 10) + p.serial % 10),
        some p.control⟩ : Captures) =
        ⟨none, y % 100, p.date.month, p.dayOrCoordination, some p.seperator,
          p.serial, some p.control⟩ := by
      rw [show 10 * (y % 100 / 10) + y % 100 % 10 = y % 100 from by omega,
        show 10 * (p.date.month / 10) + p.date.month % 10 = p.date.month from
          by omega,
        show 10 * (p.dayOrCoordination / 10) + p.dayOrCoordination % 10 =
          p.dayOrCoordination from by omega,
        show 100 * (p.serial / 100) + (10 * (p.serial / 10 % 10) +
          p.serial % 10) = p.serial from by omega]
    have hps : parse now p.formatShort = parseCaps now
        ⟨none, y % 100, p.date.month, p.dayOrCoordination, some p.seperator,
          p.serial, some p.control⟩ := by
      unfold parse
      rw [formatShort_digits p y hy hm100 hd100 hs1000 hc10, hmatch, hcapeq]
    have hry : resolvedYear now ⟨none, y % 100, p.date.month,
        p.dayOrCoordination, some p.seperator, p.serial, some p.control⟩ =
        ((y : Nat) : Int) := by
      unfold resolvedYear
      dsimp only
      cases hsp : p.seperator with
      | Minus =>
        obtain ⟨hwa, hwb⟩ := hsepm hsp
        rw [resolveCentury_none_minus]
        dsimp only
        have e1 : u32sub now (y % 100) = now - y % 100 := by
          unfold u32sub U32
          omega
        rw [e1]
        have e2 : u32sub now ((now - y % 100) % 100) =
            now - (now - y % 100) % 100 := by
          unfold u32sub U32
          omega
        rw [e2, show (now - (now - y % 100) % 100) / 100 * 100 + y % 100 = y
            from by omega,
          Nat.mod_eq_of_lt (show y < U32 by unfold U32; omega),
          i32OfU32_small _ (by omega)]
      | Plus =>
        have hwin := hsepp hsp
        have hple : y + 100 ≤ now := by omega
        rw [resolveCentury_none_plus]
        dsimp only
        have e0 : u32sub now 100 = now - 100 := by
          unfold u32sub U32
          omega
        rw [e0]
        have e1 : u32sub (now - 100) (y % 100) = now - 100 - y % 100 := by
          unfold u32sub U32
          omega
        rw [e1]
        have e2 : u32sub (now - 100) ((now - 100 - y % 100) % 100) =
            now - 100 - (now - 100 - y % 100) % 100 := by
          unfold u32sub U32
          omega
        rw [e2, show (now - 100 - (now - 100 - y % 100) % 100) / 100 * 100 +
            y % 100 = y from by omega,
          Nat.mod_eq_of_lt (show y < U32 by unfold U32; omega),
          i32OfU32_small _ (by omega)]
    rw [hps, parseCaps_eq]
    dsimp only
    rw [hry, hdoc60, hfact]
    refine ⟨_, rfl, ?_, rfl, rfl, hdco⟩
    rw [← hy]

theorem c4_roundtrip_amended_witness :
    ∃ q, parse 2026 pn4.formatLong = .ok q ∧ q.date = pn4.date ∧
      q.serial = pn4.serial ∧ q.control = pn4.control ∧
      q.coordination = pn4.coordination := by
  have h := c4_roundtrip_amended 2026 "19900101-0017".toList pn4 (by decide)
    (by decide) (by decide)
  exact h.1
